import Mathlib

/-!
Verification of the task-queue and notification pipeline of the
presight-exercise repository.

The queue (`InMemoryQueue`) is embedded as a pure association list from
request ids to task records, mirroring the JavaScript `Map` the source
class wraps: `Map.set` replaces the value of an existing key in place or
appends a new entry, `Map.get` returns the first (unique) entry,
`Map.delete` removes the key.  The socket handlers of `index.ts` and the
`POST /process` route of `routes/api.ts` are embedded as functions on an
explicit server state; `io.emit` is modelled as delivering one copy of
the event to every currently connected subscriber.
-/

/-- Task status, from the union type in `InMemoryQueue.ts`:
`'pending' | 'processing' | 'completed' | 'failed'`. -/
inductive Status where
  | pending
  | processing
  | completed
  | failed
deriving DecidableEq, Repr

/-- One queue record, from the value type of `InMemoryQueue.queue`:
`{ status; data?; result?; error? }`.  The payload type of `data`
(`unknown` in the source) is a parameter `α`. -/
structure TaskRecord (α : Type) where
  status : Status
  data : Option α
  result : Option String
  error : Option String
deriving DecidableEq, Repr

/-- The queue table `Map<string, {...}>`, as an association list. -/
def Queue (α : Type) : Type := List (String × TaskRecord α)

/-- Lookup of the first entry with the given key (`Map.get`). -/
def qfind? {β : Type} : List (String × β) → String → Option β
  | [], _ => none
  | (k, v) :: rest, id => if k = id then some v else qfind? rest id

/-- Replace-or-append update (`Map.set`): the value of an existing key is
replaced in place, a fresh key is appended. -/
def qset {β : Type} : List (String × β) → String → β → List (String × β)
  | [], id, v => [(id, v)]
  | (k, v₀) :: rest, id, v =>
      if k = id then (id, v) :: rest else (k, v₀) :: qset rest id v

/-- Key removal (`Map.delete`). -/
def qdel {β : Type} : List (String × β) → String → List (String × β)
  | [], _ => []
  | (k, v) :: rest, id =>
      if k = id then qdel rest id else (k, v) :: qdel rest id

theorem qfind?_qset {β : Type} (m : List (String × β)) (k id : String) (v : β) :
    qfind? (qset m k v) id = if id = k then some v else qfind? m id := by
  induction m with
  | nil =>
    by_cases h : id = k
    · subst h; simp [qset, qfind?]
    · rw [if_neg h]
      simp only [qset, qfind?]
      rw [if_neg (fun hh => h hh.symm)]
  | cons p rest ih =>
    obtain ⟨k₀, v₀⟩ := p
    by_cases hk : k₀ = k
    · subst hk
      by_cases h : id = k₀
      · subst h; simp [qset, qfind?]
      · rw [if_neg h]
        simp only [qset, if_pos rfl, qfind?]
        rw [if_neg (fun hh => h hh.symm), if_neg (fun hh => h hh.symm)]
    · by_cases h : k₀ = id
      · subst h
        simp [qset, if_neg hk, qfind?]
      · simp only [qset, if_neg hk, qfind?, if_neg h, ih]

theorem qset_qset_same {β : Type} (m : List (String × β)) (k : String) (v v' : β) :
    qset (qset m k v) k v' = qset m k v' := by
  induction m with
  | nil => simp [qset]
  | cons p rest ih =>
    obtain ⟨k₀, v₀⟩ := p
    by_cases hk : k₀ = k
    · subst hk
      simp [qset]
    · simp [qset, hk, ih]

theorem qfind?_qdel_self {β : Type} (m : List (String × β)) (id : String) :
    qfind? (qdel m id) id = none := by
  induction m with
  | nil => simp [qdel, qfind?]
  | cons p rest ih =>
    obtain ⟨k₀, v₀⟩ := p
    by_cases hk : k₀ = id
    · simp [qdel, hk, ih]
    · simp [qdel, hk, qfind?, ih]

namespace InMemoryQueue

variable {α : Type}

/-- `enqueue(requestId, data)`: `this.queue.set(requestId, { status: 'pending', data })`.
No presence check is made; an existing record is replaced. -/
def enqueue (q : Queue α) (requestId : String) (data : α) : Queue α :=
  qset q requestId { status := .pending, data := some data, result := none, error := none }

/-- `getStatus(requestId)`: `return item?.status || 'pending'`.
An unknown id yields the default `'pending'`; the statuses stored are
never the empty string, so `||` fires only when the id is absent. -/
def getStatus (q : Queue α) (requestId : String) : Status :=
  match qfind? q requestId with
  | some item => item.status
  | none => .pending

/-- `complete(requestId, result)`: if the record exists, set
`item.status = 'completed'; item.result = result` (the `error` field is
left as it was); otherwise do nothing. -/
def complete (q : Queue α) (requestId : String) (result : String) : Queue α :=
  match qfind? q requestId with
  | some item => qset q requestId { item with status := .completed, result := some result }
  | none => q

/-- `fail(requestId, error)`: if the record exists, set
`item.status = 'failed'; item.error = error` (the `result` field is left
as it was); otherwise do nothing. -/
def fail (q : Queue α) (requestId : String) (error : String) : Queue α :=
  match qfind? q requestId with
  | some item => qset q requestId { item with status := .failed, error := some error }
  | none => q

/-- `cleanup()`: `this.queue.clear()`. -/
def cleanup (_q : Queue α) : Queue α := []

end InMemoryQueue

/-- One mutating call on the queue, for reasoning over call sequences. -/
inductive Op (α : Type) where
  | enqueue (id : String) (data : α)
  | complete (id : String) (result : String)
  | fail (id : String) (error : String)
  | cleanup
deriving DecidableEq, Repr

def applyOp {α : Type} (q : Queue α) : Op α → Queue α
  | .enqueue id d => InMemoryQueue.enqueue q id d
  | .complete id r => InMemoryQueue.complete q id r
  | .fail id e => InMemoryQueue.fail q id e
  | .cleanup => InMemoryQueue.cleanup q

def runOps {α : Type} (q : Queue α) (ops : List (Op α)) : Queue α :=
  ops.foldl applyOp q

/-- Does this call touch the given id?  `cleanup` clears the whole table,
so it touches every id. -/
def opTouches {α : Type} : Op α → String → Bool
  | .enqueue i _, id => i == id
  | .complete i _, id => i == id
  | .fail i _, id => i == id
  | .cleanup, _ => true

namespace Server

/-- The `process-result` payload emitted by `io.emit` in `index.ts`:
`{ id, status, result }` where `status` is the string literal
`'completed'` (success handler) or `'error'` (error handler). -/
structure Event where
  id : String
  status : String
  result : String
deriving DecidableEq, Repr

/-- One entry of the server's `requestQueue` map:
`{ worker: Worker; socketId?: string }`, with the worker identified by a
number. -/
structure WorkerInfo where
  workerId : Nat
  socketId : Option String
deriving DecidableEq, Repr

/-- The observable state of `index.ts`: the shared queue service, the
`requestQueue` active-worker table, the set of connected subscribers,
the log of events delivered to each subscriber by `io.emit`, the log of
`worker.postMessage` calls, and the workers on which `worker.terminate()`
has been called. -/
structure SrvState (α : Type) where
  queue : Queue α
  requestQueue : List (String × WorkerInfo)
  subscribers : List String
  delivered : List (String × Event)
  posted : List (String × Nat)
  terminated : List Nat

/-- `io.emit(event)`: delivers one copy of the event to every currently
connected subscriber. -/
def ioEmit {α : Type} (s : SrvState α) (e : Event) : SrvState α :=
  { s with delivered := s.delivered ++ s.subscribers.map (fun sub => (sub, e)) }

/-- The `socket.on('process-request')` handler (`index.ts` lines
107-130): it reads `queue.getStatus(requestId)`, but the
`if (status === 'pending')` branch is empty, so a fresh worker `w` is
created, registered in `requestQueue` under the id, and sent the payload
unconditionally. -/
def processRequest {α : Type} (s : SrvState α) (requestId socketId : String)
    (w : Nat) : SrvState α :=
  let status := InMemoryQueue.getStatus s.queue requestId
  let _ := status == Status.pending
  { s with
    requestQueue := qset s.requestQueue requestId { workerId := w, socketId := some socketId },
    posted := s.posted ++ [(requestId, w)] }

/-- The `worker.on('message')` handler (`index.ts` lines 132-147): mark
the task completed in the queue, `io.emit` a `process-result` event with
status `'completed'`, delete the id from `requestQueue`, and call
`worker.terminate()` on the worker `w` captured by the closure. -/
def workerMessage {α : Type} (s : SrvState α) (w : Nat) (respId respResult : String) :
    SrvState α :=
  let s₁ := { s with queue := InMemoryQueue.complete s.queue respId respResult }
  let s₂ := ioEmit s₁ { id := respId, status := "completed", result := respResult }
  { s₂ with
    requestQueue := qdel s₂.requestQueue respId,
    terminated := s₂.terminated ++ [w] }

/-- The `worker.on('error')` handler (`index.ts` lines 149-161): mark
the task failed in the queue, `io.emit` a `process-result` event with
status `'error'` and result `'Error: ' + message`, and delete the id
from `requestQueue`.  The handler never calls `worker.terminate()`, so
the captured worker `_w` is unused. -/
def workerError {α : Type} (s : SrvState α) (_w : Nat) (requestId errMsg : String) :
    SrvState α :=
  let s₁ := { s with queue := InMemoryQueue.fail s.queue requestId errMsg }
  let s₂ := ioEmit s₁ { id := requestId, status := "error", result := "Error: " ++ errMsg }
  { s₂ with requestQueue := qdel s₂.requestQueue requestId }

/-- The events a given subscriber has received, in order. -/
def deliveredTo (d : List (String × Event)) (sub : String) : List Event :=
  (d.filter (fun p => p.1 == sub)).map Prod.snd

end Server

namespace Api

/-- The JSON body and HTTP status sent by the `POST /process` route. -/
structure ProcessResponse where
  httpStatus : Nat
  id : String
  status : String
deriving DecidableEq, Repr

/-- The id generator of the route:
`req_${Date.now()}_${Math.random().toString(36).substr(2, 9)}`, with the
clock reading and the random suffix as inputs. -/
def genRequestId (now : Nat) (rand : String) : String :=
  "req_" ++ toString now ++ "_" ++ rand

/-- The `router.post('/process')` handler (`routes/api.ts` lines
146-160): generate an id, `queue.enqueue(requestId, { timestamp })`, and
respond with `res.json({ id, status: 'pending' })` (HTTP 200, the
default for `res.json`). -/
def postProcess {α : Type} (q : Queue α) (now : Nat) (rand : String) (timestamp : α) :
    Queue α × ProcessResponse :=
  let requestId := genRequestId now rand
  (InMemoryQueue.enqueue q requestId timestamp,
   { httpStatus := 200, id := requestId, status := "pending" })

end Api

/-- Record-level invariant that the code maintains: a pending record has
neither result nor error, and the status `processing` is never stored
(no queue operation writes it). -/
def recOk {α : Type} (rec : TaskRecord α) : Prop :=
  (rec.status = .pending → rec.result = none ∧ rec.error = none) ∧
  rec.status ≠ .processing

def queueOk {α : Type} (q : Queue α) : Prop :=
  ∀ id rec, qfind? q id = some rec → recOk rec

theorem queueOk_nil {α : Type} : queueOk ([] : Queue α) := by
  intro id rec h
  simp [qfind?] at h

theorem queueOk_applyOp {α : Type} {q : Queue α} (hq : queueOk q) (op : Op α) :
    queueOk (applyOp q op) := by
  cases op with
  | enqueue i d =>
    intro id rec h
    simp only [applyOp, InMemoryQueue.enqueue, qfind?_qset] at h
    by_cases hid : id = i
    · rw [if_pos hid] at h
      injection h with h'
      subst h'
      exact ⟨fun _ => ⟨rfl, rfl⟩, by simp⟩
    · rw [if_neg hid] at h
      exact hq id rec h
  | complete i r =>
    intro id rec h
    simp only [applyOp, InMemoryQueue.complete] at h
    cases hfind : qfind? q i with
    | none =>
      rw [hfind] at h
      exact hq id rec h
    | some item =>
      rw [hfind] at h
      simp only [qfind?_qset] at h
      by_cases hid : id = i
      · rw [if_pos hid] at h
        injection h with h'
        subst h'
        exact ⟨fun hp => by simp at hp, by simp⟩
      · rw [if_neg hid] at h
        exact hq id rec h
  | fail i e =>
    intro id rec h
    simp only [applyOp, InMemoryQueue.fail] at h
    cases hfind : qfind? q i with
    | none =>
      rw [hfind] at h
      exact hq id rec h
    | some item =>
      rw [hfind] at h
      simp only [qfind?_qset] at h
      by_cases hid : id = i
      · rw [if_pos hid] at h
        injection h with h'
        subst h'
        exact ⟨fun hp => by simp at hp, by simp⟩
      · rw [if_neg hid] at h
        exact hq id rec h
  | cleanup =>
    intro id rec h
    simp [applyOp, InMemoryQueue.cleanup, qfind?] at h

theorem queueOk_runOps {α : Type} {q : Queue α} (hq : queueOk q) (ops : List (Op α)) :
    queueOk (runOps q ops) := by
  induction ops generalizing q with
  | nil => exact hq
  | cons op rest ih => exact ih (queueOk_applyOp hq op)

theorem getStatus_applyOp_untouched {α : Type} (q : Queue α) (op : Op α) (id : String)
    (h : opTouches op id = false) :
    InMemoryQueue.getStatus (applyOp q op) id = InMemoryQueue.getStatus q id := by
  cases op with
  | enqueue i d =>
    have hne : ¬ id = i := by
      simp only [opTouches, beq_eq_false_iff_ne] at h
      exact fun hh => h hh.symm
    simp [applyOp, InMemoryQueue.enqueue, InMemoryQueue.getStatus, qfind?_qset, hne]
  | complete i r =>
    have hne : ¬ id = i := by
      simp only [opTouches, beq_eq_false_iff_ne] at h
      exact fun hh => h hh.symm
    simp only [applyOp, InMemoryQueue.complete]
    cases hfind : qfind? q i with
    | none => rfl
    | some item => simp [InMemoryQueue.getStatus, qfind?_qset, hne]
  | fail i e =>
    have hne : ¬ id = i := by
      simp only [opTouches, beq_eq_false_iff_ne] at h
      exact fun hh => h hh.symm
    simp only [applyOp, InMemoryQueue.fail]
    cases hfind : qfind? q i with
    | none => rfl
    | some item => simp [InMemoryQueue.getStatus, qfind?_qset, hne]
  | cleanup => simp [opTouches] at h

theorem getStatus_runOps_untouched {α : Type} (q : Queue α) (ops : List (Op α)) (id : String)
    (h : ∀ op ∈ ops, opTouches op id = false) :
    InMemoryQueue.getStatus (runOps q ops) id = InMemoryQueue.getStatus q id := by
  induction ops generalizing q with
  | nil => rfl
  | cons op rest ih =>
    have h1 : opTouches op id = false := h op (List.mem_cons_self _ _)
    have h2 : ∀ op' ∈ rest, opTouches op' id = false :=
      fun op' hm => h op' (List.mem_cons_of_mem _ hm)
    have hstep : runOps q (op :: rest) = runOps (applyOp q op) rest := rfl
    rw [hstep, ih (applyOp q op) h2, getStatus_applyOp_untouched q op id h1]

theorem qfind?_complete_self {α : Type} {q : Queue α} {id : String} {rec : TaskRecord α}
    (h : qfind? q id = some rec) (r : String) :
    qfind? (InMemoryQueue.complete q id r) id =
      some { rec with status := .completed, result := some r } := by
  simp [InMemoryQueue.complete, h, qfind?_qset]

theorem qfind?_fail_self {α : Type} {q : Queue α} {id : String} {rec : TaskRecord α}
    (h : qfind? q id = some rec) (e : String) :
    qfind? (InMemoryQueue.fail q id e) id =
      some { rec with status := .failed, error := some e } := by
  simp [InMemoryQueue.fail, h, qfind?_qset]

theorem complete_complete_same {α : Type} {q : Queue α} {id : String} {rec : TaskRecord α}
    (h : qfind? q id = some rec) (r : String) :
    InMemoryQueue.complete (InMemoryQueue.complete q id r) id r =
      InMemoryQueue.complete q id r := by
  have hc : InMemoryQueue.complete q id r =
      qset q id { rec with status := .completed, result := some r } := by
    simp [InMemoryQueue.complete, h]
  rw [hc]
  have h2 : qfind? (qset q id { rec with status := .completed, result := some r }) id =
      some { rec with status := .completed, result := some r } := by
    rw [qfind?_qset]
    simp
  simp only [InMemoryQueue.complete, h2]
  exact qset_qset_same q id _ _

theorem fail_fail_same {α : Type} {q : Queue α} {id : String} {rec : TaskRecord α}
    (h : qfind? q id = some rec) (e : String) :
    InMemoryQueue.fail (InMemoryQueue.fail q id e) id e =
      InMemoryQueue.fail q id e := by
  have hc : InMemoryQueue.fail q id e =
      qset q id { rec with status := .failed, error := some e } := by
    simp [InMemoryQueue.fail, h]
  rw [hc]
  have h2 : qfind? (qset q id { rec with status := .failed, error := some e }) id =
      some { rec with status := .failed, error := some e } := by
    rw [qfind?_qset]
    simp
  simp only [InMemoryQueue.fail, h2]
  exact qset_qset_same q id _ _

theorem deliveredTo_append (a b : List (String × Server.Event)) (sub : String) :
    Server.deliveredTo (a ++ b) sub =
      Server.deliveredTo a sub ++ Server.deliveredTo b sub := by
  simp [Server.deliveredTo, List.filter_append]

theorem deliveredTo_map_not_mem {subs : List String} {sub : String} (h : sub ∉ subs)
    (e : Server.Event) :
    Server.deliveredTo (subs.map (fun s => (s, e))) sub = [] := by
  induction subs with
  | nil => rfl
  | cons s rest ih =>
    rw [List.mem_cons, not_or] at h
    obtain ⟨h1, h2⟩ := h
    have hs : (s == sub) = false := beq_eq_false_iff_ne.mpr (fun hh => h1 hh.symm)
    simpa [Server.deliveredTo, List.filter_cons, hs] using ih h2

theorem getStatus_runOps_ne_processing {α : Type} (ops : List (Op α)) (id : String) :
    InMemoryQueue.getStatus (runOps [] ops) id ≠ Status.processing := by
  have hq := queueOk_runOps (queueOk_nil (α := α)) ops
  cases hfind : qfind? (runOps [] ops) id with
  | none => simp [InMemoryQueue.getStatus, hfind]
  | some rec =>
    have hrec := (hq id rec hfind).2
    simpa [InMemoryQueue.getStatus, hfind] using hrec

theorem deliveredTo_map_single {subs : List String} {sub : String} (hnd : subs.Nodup)
    (hmem : sub ∈ subs) (e : Server.Event) :
    Server.deliveredTo (subs.map (fun s => (s, e))) sub = [e] := by
  induction subs with
  | nil => cases hmem
  | cons s rest ih =>
    rw [List.nodup_cons] at hnd
    obtain ⟨hsnot, hrest⟩ := hnd
    rcases List.mem_cons.mp hmem with hh | hm
    · subst hh
      have hempty := deliveredTo_map_not_mem hsnot e
      simpa [Server.deliveredTo, List.filter_cons] using hempty
    · have hsne : (s == sub) = false :=
        beq_eq_false_iff_ne.mpr (fun hh => hsnot (hh ▸ hm))
      simpa [Server.deliveredTo, List.filter_cons, hsne] using ih hrest hm

/-- C1 (counterexample): the claim is false.  After `enqueue "a"` and
`fail "a" "boom"` the record of `"a"` is terminal (`failed`), yet a
subsequent `complete "a" "ok"` does alter the record: the status flips
to `completed` and the result is set (the old error is even kept). -/
theorem C1_counterexample :
    InMemoryQueue.getStatus
      (InMemoryQueue.fail (InMemoryQueue.enqueue ([] : Queue Nat) "a" 0) "a" "boom") "a" =
      Status.failed ∧
    qfind? (InMemoryQueue.complete
      (InMemoryQueue.fail (InMemoryQueue.enqueue ([] : Queue Nat) "a" 0) "a" "boom") "a" "ok") "a" =
      some { status := Status.completed, data := some 0, result := some "ok", error := some "boom" } ∧
    qfind? (InMemoryQueue.complete
      (InMemoryQueue.fail (InMemoryQueue.enqueue ([] : Queue Nat) "a" 0) "a" "boom") "a" "ok") "a" ≠
    qfind? (InMemoryQueue.fail (InMemoryQueue.enqueue ([] : Queue Nat) "a" 0) "a" "boom") "a" := by
  decide

/-- C1 (amended): `complete` and `fail` on an already-terminal record
never throw (both are total functions), but they do not leave the record
unchanged: `complete` overwrites the status to `completed` and the
result to the given string while keeping the old error field, and `fail`
does the symmetric overwrite; only repeating the very same call again is
idempotent. -/
theorem C1_terminal_calls_overwrite {α : Type} (q : Queue α) (id : String)
    (rec : TaskRecord α) (r e : String)
    (h : qfind? q id = some rec)
    (_hterm : rec.status = Status.completed ∨ rec.status = Status.failed) :
    qfind? (InMemoryQueue.complete q id r) id =
      some { rec with status := .completed, result := some r } ∧
    qfind? (InMemoryQueue.fail q id e) id =
      some { rec with status := .failed, error := some e } ∧
    InMemoryQueue.complete (InMemoryQueue.complete q id r) id r =
      InMemoryQueue.complete q id r ∧
    InMemoryQueue.fail (InMemoryQueue.fail q id e) id e =
      InMemoryQueue.fail q id e :=
  ⟨qfind?_complete_self h r, qfind?_fail_self h e,
   complete_complete_same h r, fail_fail_same h e⟩

/-- Witness for C1 at a concrete terminal record. -/
theorem C1_terminal_calls_overwrite_witness :
    qfind? (InMemoryQueue.complete
      ([("a", { status := Status.failed, data := some 0, result := none, error := some "boom" })] :
        Queue Nat) "a" "ok") "a" =
      some { status := Status.completed, data := some 0, result := some "ok", error := some "boom" } :=
  (C1_terminal_calls_overwrite
    [("a", { status := Status.failed, data := some 0, result := none, error := some "boom" })]
    "a" { status := Status.failed, data := some 0, result := none, error := some "boom" }
    "ok" "later" (by decide) (Or.inr rfl)).1

/-- C2 (counterexample): the claim is false: `getStatus` on a
never-enqueued id does not fail with `NotFoundError`; it returns the
default `'pending'` produced by `item?.status || 'pending'`. -/
theorem C2_counterexample :
    qfind? ([] : Queue Nat) "missing" = none ∧
    InMemoryQueue.getStatus ([] : Queue Nat) "missing" = Status.pending := by
  decide

/-- C2 (amended): for an id absent from the table, `getStatus` returns
the status `pending` instead of failing; the function is total. -/
theorem C2_unknown_id_pending {α : Type} (q : Queue α) (id : String)
    (h : qfind? q id = none) :
    InMemoryQueue.getStatus q id = Status.pending := by
  simp [InMemoryQueue.getStatus, h]

/-- Witness for C2 at the empty table. -/
theorem C2_unknown_id_pending_witness :
    InMemoryQueue.getStatus ([] : Queue Nat) "missing" = Status.pending :=
  C2_unknown_id_pending [] "missing" rfl

/-- C3 (counterexample): the claim is false: re-enqueueing an id already
in the table raises no `DuplicateIdError` and does modify the table —
the old record (payload 1) is replaced by a fresh pending record with
the new payload 2. -/
theorem C3_counterexample :
    qfind? (InMemoryQueue.enqueue ([] : Queue Nat) "a" 1) "a" =
      some { status := Status.pending, data := some 1, result := none, error := none } ∧
    qfind? (InMemoryQueue.enqueue (InMemoryQueue.enqueue ([] : Queue Nat) "a" 1) "a" 2) "a" =
      some { status := Status.pending, data := some 2, result := none, error := none } ∧
    qfind? (InMemoryQueue.enqueue (InMemoryQueue.enqueue ([] : Queue Nat) "a" 1) "a" 2) "a" ≠
      qfind? (InMemoryQueue.enqueue ([] : Queue Nat) "a" 1) "a" := by
  decide

/-- C3 (amended): `enqueue` on an id already present does not fail: it
silently replaces the record with a fresh pending record holding the new
payload (result and error cleared), leaving every other id's record
untouched. -/
theorem C3_enqueue_replaces {α : Type} (q : Queue α) (id : String) (d : α) :
    qfind? (InMemoryQueue.enqueue q id d) id =
      some { status := .pending, data := some d, result := none, error := none } ∧
    ∀ id', id' ≠ id → qfind? (InMemoryQueue.enqueue q id d) id' = qfind? q id' := by
  constructor
  · simp [InMemoryQueue.enqueue, qfind?_qset]
  · intro id' hne
    simp [InMemoryQueue.enqueue, qfind?_qset, hne]

/-- Witness for C3 on a table holding an unrelated id. -/
theorem C3_enqueue_replaces_witness :
    qfind? (InMemoryQueue.enqueue
      ([("b", { status := Status.pending, data := some 9, result := none, error := none })] :
        Queue Nat) "a" 0) "a" =
      some { status := Status.pending, data := some 0, result := none, error := none } ∧
    qfind? (InMemoryQueue.enqueue
      ([("b", { status := Status.pending, data := some 9, result := none, error := none })] :
        Queue Nat) "a" 0) "b" =
      some { status := Status.pending, data := some 9, result := none, error := none } :=
  ⟨(C3_enqueue_replaces _ "a" 0).1, (C3_enqueue_replaces _ "a" 0).2 "b" (by decide)⟩

/-- C4 (counterexample): the claim is false: after `enqueue`, `fail`,
`complete` on the same id the record holds a result and an error at the
same time, because `complete` leaves the `error` field as it was. -/
theorem C4_counterexample :
    qfind? (runOps ([] : Queue Nat)
      [Op.enqueue "a" 0, Op.fail "a" "boom", Op.complete "a" "ok"]) "a" =
      some { status := Status.completed, data := some 0,
             result := some "ok", error := some "boom" } := by
  decide

/-- C4 (amended): in every queue reachable from the empty table, a
record whose status is pending (or processing, which is in fact never
stored) has both `result` and `error` unset; mutual exclusion of
`result` and `error` does not hold in general, as the counterexample
shows. -/
theorem C4_pending_records_clean {α : Type} (ops : List (Op α)) (id : String)
    (rec : TaskRecord α)
    (h : qfind? (runOps [] ops) id = some rec) :
    (rec.status = Status.pending → rec.result = none ∧ rec.error = none) ∧
    rec.status ≠ Status.processing :=
  queueOk_runOps queueOk_nil ops id rec h

/-- Witness for C4 on the record created by a single `enqueue`. -/
theorem C4_pending_records_clean_witness :
    (({ status := Status.pending, data := some 0, result := none, error := none } :
        TaskRecord Nat).status = Status.pending →
      ({ status := Status.pending, data := some 0, result := none, error := none } :
        TaskRecord Nat).result = none ∧
      ({ status := Status.pending, data := some 0, result := none, error := none } :
        TaskRecord Nat).error = none) ∧
    ({ status := Status.pending, data := some 0, result := none, error := none } :
        TaskRecord Nat).status ≠ Status.processing :=
  C4_pending_records_clean [Op.enqueue "a" 0] "a"
    { status := Status.pending, data := some 0, result := none, error := none } (by decide)

/-- C5 (counterexample): the claim is false: a `fail` after `complete`
moves the record from one terminal status to the other, and a second
`enqueue` moves a completed record back to `pending`. -/
theorem C5_counterexample :
    InMemoryQueue.getStatus (runOps ([] : Queue Nat)
      [Op.enqueue "a" 0, Op.complete "a" "ok"]) "a" = Status.completed ∧
    InMemoryQueue.getStatus (runOps ([] : Queue Nat)
      [Op.enqueue "a" 0, Op.complete "a" "ok", Op.fail "a" "boom"]) "a" = Status.failed ∧
    InMemoryQueue.getStatus (runOps ([] : Queue Nat)
      [Op.enqueue "a" 0, Op.complete "a" "ok", Op.enqueue "a" 1]) "a" = Status.pending := by
  decide

/-- C5 (amended): statuses are not monotonic in general — a duplicate
terminal call switches between `completed` and `failed`, and a
re-`enqueue` resets to `pending` (see the counterexample).  What does
hold: the queue never stores `processing`, and the status of an id is
unchanged by any sequence of calls none of which targets that id
(`cleanup` counts as targeting every id). -/
theorem C5_status_stability {α : Type} (q : Queue α) (ops opsAll : List (Op α))
    (id : String)
    (h : ∀ op ∈ ops, opTouches op id = false) :
    InMemoryQueue.getStatus (runOps q ops) id = InMemoryQueue.getStatus q id ∧
    InMemoryQueue.getStatus (runOps [] opsAll) id ≠ Status.processing :=
  ⟨getStatus_runOps_untouched q ops id h, getStatus_runOps_ne_processing opsAll id⟩

/-- Witness for C5: calls on `"b"` leave the completed status of `"a"`
unchanged, and running a full lifecycle never shows `processing`. -/
theorem C5_status_stability_witness :
    InMemoryQueue.getStatus (runOps
      ([("a", { status := Status.completed, data := some 0, result := some "ok", error := none })] :
        Queue Nat)
      [Op.enqueue "b" 1, Op.complete "b" "r"]) "a" =
      InMemoryQueue.getStatus
        ([("a", { status := Status.completed, data := some 0, result := some "ok", error := none })] :
          Queue Nat) "a" ∧
    InMemoryQueue.getStatus (runOps ([] : Queue Nat)
      [Op.enqueue "a" 0, Op.complete "a" "ok"]) "a" ≠ Status.processing :=
  C5_status_stability _ [Op.enqueue "b" 1, Op.complete "b" "r"]
    [Op.enqueue "a" 0, Op.complete "a" "ok"] "a" (by decide)

/-- C6 (counterexample): the claim is false: on a `process-request` for
an id the queue has never seen (here `"x"` against an empty queue), the
handler still creates worker 7, registers it in the active-worker table,
and posts the payload to it. -/
theorem C6_counterexample :
    qfind?
      ({ queue := [], requestQueue := [], subscribers := [], delivered := [],
         posted := [], terminated := [] } : Server.SrvState Nat).queue "x" = none ∧
    qfind? (Server.processRequest
      ({ queue := [], requestQueue := [], subscribers := [], delivered := [],
         posted := [], terminated := [] } : Server.SrvState Nat) "x" "sock1" 7).requestQueue "x" =
      some { workerId := 7, socketId := some "sock1" } ∧
    (Server.processRequest
      ({ queue := [], requestQueue := [], subscribers := [], delivered := [],
         posted := [], terminated := [] } : Server.SrvState Nat) "x" "sock1" 7).posted =
      [("x", 7)] := by
  decide

/-- C6 (amended): the `process-request` handler dispatches
unconditionally: for every server state and id — known or unknown,
pending or not — a worker is created, registered under the id, and sent
the payload; the pending check is read but its branch is empty, and the
queue itself is left untouched. -/
theorem C6_dispatch_unconditional {α : Type} (s : Server.SrvState α)
    (requestId socketId : String) (w : Nat) :
    qfind? (Server.processRequest s requestId socketId w).requestQueue requestId =
      some { workerId := w, socketId := some socketId } ∧
    (Server.processRequest s requestId socketId w).posted = s.posted ++ [(requestId, w)] ∧
    (Server.processRequest s requestId socketId w).queue = s.queue := by
  refine ⟨?_, rfl, rfl⟩
  simp [Server.processRequest, qfind?_qset]

/-- C7 (counterexample): the claim is false on the error path: with
worker 7 active for task `"x"`, the `worker.on('error')` handler removes
the entry from the active-worker table but never calls
`worker.terminate()` — the set of terminated workers stays empty. -/
theorem C7_counterexample :
    qfind? (Server.workerError
      ({ queue := [("x", { status := Status.pending, data := some 0, result := none, error := none })],
         requestQueue := [("x", { workerId := 7, socketId := some "sock1" })],
         subscribers := [], delivered := [], posted := [],
         terminated := [] } : Server.SrvState Nat) 7 "x" "boom").requestQueue "x" = none ∧
    (Server.workerError
      ({ queue := [("x", { status := Status.pending, data := some 0, result := none, error := none })],
         requestQueue := [("x", { workerId := 7, socketId := some "sock1" })],
         subscribers := [], delivered := [], posted := [],
         terminated := [] } : Server.SrvState Nat) 7 "x" "boom").terminated = [] := by
  decide

/-- C7 (amended): after a worker reports its outcome the task id is
removed from the active-worker table on both paths, but only the success
path terminates the worker: the message handler calls
`worker.terminate()`, while the error handler leaves the terminated set
unchanged. -/
theorem C7_outcome_cleanup {α : Type} (s : Server.SrvState α) (w : Nat)
    (id res err : String) :
    (Server.workerMessage s w id res).terminated = s.terminated ++ [w] ∧
    qfind? (Server.workerMessage s w id res).requestQueue id = none ∧
    qfind? (Server.workerError s w id err).requestQueue id = none ∧
    (Server.workerError s w id err).terminated = s.terminated := by
  refine ⟨rfl, ?_, ?_, rfl⟩
  · simp [Server.workerMessage, Server.ioEmit, qfind?_qdel_self]
  · simp [Server.workerError, Server.ioEmit, qfind?_qdel_self]

/-- C8 (confirmed): `POST /process` enqueues the freshly generated id as
a pending record holding the timestamp payload and responds HTTP 200
with body `{ id, status: 'pending' }`; immediately after admission,
`getStatus` on that id returns `pending`. -/
theorem C8_post_process_pending {α : Type} (q : Queue α) (now : Nat) (rand : String)
    (ts : α) :
    (Api.postProcess q now rand ts).2 =
      { httpStatus := 200, id := Api.genRequestId now rand, status := "pending" } ∧
    InMemoryQueue.getStatus (Api.postProcess q now rand ts).1 (Api.genRequestId now rand) =
      Status.pending ∧
    qfind? (Api.postProcess q now rand ts).1 (Api.genRequestId now rand) =
      some { status := .pending, data := some ts, result := none, error := none } := by
  refine ⟨rfl, ?_, ?_⟩
  · simp [Api.postProcess, InMemoryQueue.enqueue, InMemoryQueue.getStatus, qfind?_qset]
  · simp [Api.postProcess, InMemoryQueue.enqueue, qfind?_qset]

/-- C9 (confirmed): when one task transitions to completed, every
currently connected subscriber receives exactly one new
`process-result` event and it carries that task's id and status
`'completed'`: the subscriber's delivered log is extended by exactly
that one event. -/
theorem C9_broadcast_fanout {α : Type} (s : Server.SrvState α) (w : Nat)
    (id res sub : String) (hnd : s.subscribers.Nodup) (hmem : sub ∈ s.subscribers) :
    Server.deliveredTo (Server.workerMessage s w id res).delivered sub =
      Server.deliveredTo s.delivered sub ++
        [{ id := id, status := "completed", result := res }] := by
  have hdel : (Server.workerMessage s w id res).delivered =
      s.delivered ++ s.subscribers.map
        (fun sub' => (sub', ({ id := id, status := "completed", result := res } : Server.Event))) :=
    rfl
  rw [hdel, deliveredTo_append, deliveredTo_map_single hnd hmem]

/-- Witness for C9: three connected subscribers, one completion, the
middle subscriber receives exactly the one matching event. -/
theorem C9_broadcast_fanout_witness :
    Server.deliveredTo (Server.workerMessage
      ({ queue := [("a", { status := Status.pending, data := some 0, result := none, error := none })],
         requestQueue := [("a", { workerId := 7, socketId := some "s1" })],
         subscribers := ["s1", "s2", "s3"], delivered := [], posted := [],
         terminated := [] } : Server.SrvState Nat) 7 "a" "ok").delivered "s2" =
      [{ id := "a", status := "completed", result := "ok" }] :=
  C9_broadcast_fanout _ 7 "a" "ok" "s2" (by decide) (by decide)

/-- C10 (confirmed): `complete` and `fail` on an id absent from the
table return without throwing and leave the entire table unchanged — no
record is created and none is modified. -/
theorem C10_unknown_id_noop {α : Type} (q : Queue α) (id r e : String)
    (h : qfind? q id = none) :
    InMemoryQueue.complete q id r = q ∧ InMemoryQueue.fail q id e = q := by
  constructor
  · simp [InMemoryQueue.complete, h]
  · simp [InMemoryQueue.fail, h]

/-- Witness for C10 on a table holding only an unrelated id. -/
theorem C10_unknown_id_noop_witness :
    InMemoryQueue.complete
      ([("b", { status := Status.pending, data := some 5, result := none, error := none })] :
        Queue Nat) "a" "ok" =
      [("b", { status := Status.pending, data := some 5, result := none, error := none })] ∧
    InMemoryQueue.fail
      ([("b", { status := Status.pending, data := some 5, result := none, error := none })] :
        Queue Nat) "a" "boom" =
      [("b", { status := Status.pending, data := some 5, result := none, error := none })] :=
  C10_unknown_id_noop _ "a" "ok" "boom" (by decide)
